import Mathlib

/-!
Verification development for the URLtoHTML batch fetch pipeline.

The Python package `url_to_html` orchestrates a three-tier fetch strategy
(static fetch, custom JS rendering, Decodo provider polling).  This file
gives a shallow embedding of the pure decision logic of the pipeline and
proves properties about it:

* `extractHostname` / `shouldSkipCustomJs` mirror
  `async_batch_fetcher._extract_hostname` / `_should_skip_custom_js`,
  including a model of Python's `urllib.parse.urlparse` netloc/path split.
* `isSkeletonContent` / `isCustomJsSkeleton` mirror
  `content_analyzer.ContentAnalyzer`; HTML parsing done by BeautifulSoup is
  abstracted by an oracle supplying the quantities the code reads from the
  parse tree, while all plain string computations are embedded directly.
* `asyncFetchBatch` mirrors the orchestrator `async_fetch_batch`; the three
  network tiers are oracles (their code either performs I/O or is not part
  of the sources at hand and is then modelled from the spec as indicated).
* `DecodoFallback.pollStep` / `pollTaskResult` / `processUrls` mirror
  `async_decodo_fallback.AsyncDecodoFallback`, with HTTP traffic given by an
  event stream and JSON payloads modelled by an explicit `Json` type.
  Diagnostic error strings built by Python f-strings are abstracted to
  structured `PollErr` tags.  Seconds are modelled as rationals.
-/

namespace UrlToHtml

/-! ### Python string primitives -/

/-- Containment of `needle` as a contiguous run inside a character list. -/
def charsContain (needle : List Char) : List Char → Bool
  | [] => needle.isEmpty
  | c :: rest => needle.isPrefixOf (c :: rest) || charsContain needle rest

/-- Python `needle in haystack` on strings: substring containment. -/
def pyIn (needle haystack : String) : Bool :=
  charsContain needle.toList haystack.toList

/-- Python `str.lower` (character-wise lowering; agrees on ASCII). -/
def strLower (s : String) : String :=
  String.mk (s.toList.map Char.toLower)

/-- Python `str.endswith`. -/
def strEndsWith (s suffix : String) : Bool :=
  suffix.toList.reverse.isPrefixOf s.toList.reverse

/-- Python truthiness of an optional string (`None` and `""` are falsy). -/
def optStrTruthy : Option String → Bool
  | none => false
  | some s => !s.isEmpty

/-! ### Model of `urllib.parse.urlparse` (netloc / path only)

`_extract_hostname` reads `parsed.netloc or parsed.path`.  We model the
relevant fragment of CPython's `urlsplit`/`urlparse`: optional scheme
removal, netloc extraction after `//`, removal of fragment, query and
(for `urlparse`) path parameters. -/

/-- Characters allowed in a URL scheme after the first letter. -/
def schemeChar (c : Char) : Bool :=
  c.isAlphanum || c = '+' || c = '-' || c = '.'

/-- Drop a leading `scheme:` when the prefix before the first `:` is a valid
scheme (first char a letter, the rest scheme chars), as `urlsplit` does. -/
def stripScheme (l : List Char) : List Char :=
  match l.findIdx? (· = ':') with
  | none => l
  | some i =>
    if 0 < i && (l.take i).all schemeChar && l.headI.isAlpha then l.drop (i + 1)
    else l

/-- A character that terminates the netloc component. -/
def netlocEnd (c : Char) : Bool := c = '/' || c = '?' || c = '#'

/-- Split off the netloc after a leading `//`, as `urlsplit` does. -/
def splitNetloc (l : List Char) : List Char × List Char :=
  if l.take 2 = ['/', '/'] then
    let rest := l.drop 2
    (rest.takeWhile (fun c => !netlocEnd c), rest.dropWhile (fun c => !netlocEnd c))
  else ([], l)

/-- Index of the last occurrence of `c` in `l` (Python `rfind`). -/
def rfindIdx (l : List Char) (c : Char) : Option Nat :=
  match (l.reverse).findIdx? (· = c) with
  | none => none
  | some i => some (l.length - 1 - i)

/-- Python `_splitparams` applied to the path component: cut the path at the
first `;` occurring after the last `/` (or anywhere when there is no `/`). -/
def splitParams (l : List Char) : List Char :=
  if l.contains ';' then
    if l.contains '/' then
      match rfindIdx l '/' with
      | none => l
      | some j =>
        match (l.drop j).findIdx? (· = ';') with
        | none => l
        | some m => l.take (j + m)
    else
      match l.findIdx? (· = ';') with
      | none => l
      | some i => l.take i
  else l

/-- The `(netloc, path)` components of `urlparse` for the fragment of the
grammar exercised here. -/
def pyUrlparse (url : String) : String × String :=
  let l := stripScheme url.toList
  let (netloc, rest) := splitNetloc l
  let path := splitParams ((rest.takeWhile (· ≠ '#')).takeWhile (· ≠ '?'))
  (String.mk netloc, String.mk path)

/-! ### `async_batch_fetcher._extract_hostname` and `_should_skip_custom_js` -/

/-- `_extract_hostname`: normalized hostname (without `www.`) from a URL,
`(parsed.netloc or parsed.path).lower()` with a leading `www.` stripped. -/
def extractHostname (url : String) : String :=
  let p := pyUrlparse url
  let hostname := (strLower (if p.1.isEmpty then p.2 else p.1)).toList
  String.mk (if ['w', 'w', 'w', '.'].isPrefixOf hostname then hostname.drop 4
    else hostname)

/-- `_should_skip_custom_js`: whether a URL bypasses the custom-JS tier,
matching the hostname exactly or as a subdomain of a configured domain. -/
def shouldSkipCustomJs (url : String) (excludedDomains : List String) : Bool :=
  if excludedDomains.isEmpty then false
  else
    let hostname := extractHostname url
    excludedDomains.any (fun domain =>
      hostname == domain || strEndsWith hostname ("." ++ domain))

/-! ### `content_analyzer.ContentAnalyzer`

BeautifulSoup parsing is abstracted by an oracle of type
`String → Option ParsedDoc`: `none` models a parse failure, and a
`ParsedDoc` carries the three quantities `is_skeleton_content` reads from
the parse tree (`len(soup.get_text(...))`, the meaningful-element count and
`len(soup.find_all('div'))`).  Everything computed directly on the HTML
string (lengths, lower-cased keyword search) is embedded directly. -/

/-- Parse-tree measurements that `is_skeleton_content` obtains from
BeautifulSoup. -/
structure ParsedDoc where
  textLength : Nat
  meaningfulElements : Nat
  divCount : Nat
deriving DecidableEq

/-- Thresholds of `ContentAnalyzer.__init__` (floats as rationals). -/
structure AnalyzerConfig where
  minContentLength : Nat
  minTextLength : Nat
  minMeaningfulElements : Nat
  textToMarkupRatio : ℚ
deriving DecidableEq

/-- The reason strings returned by `is_skeleton_content`, as tags. -/
inductive SkeletonReason where
  | emptyContent
  | contentTooShort
  | unparseable
  | validUnparseable
  | textTooShort
  | tooFewMeaningful
  | lowRatio
  | manyIndicators
  | layoutHeavy
  | valid
deriving DecidableEq

/-- The hardcoded skeleton keyword list of `is_skeleton_content`. -/
def skeletonIndicators : List String :=
  ["loading", "skeleton", "placeholder", "spinner", "shimmer", "pulse"]

/-- `sum(1 for indicator in skeleton_indicators if indicator in html_lower)`. -/
def skeletonIndicatorCount (html : String) : Nat :=
  (skeletonIndicators.filter (fun k => pyIn k (strLower html))).length

/-- The text-to-markup ratio block of `is_skeleton_content` (source lines
107-126): `true` exactly when that block returns the low-ratio verdict
(the inner `content_length < 50000` guard keeps large low-ratio pages). -/
def ratioCheckFires (minRatio : ℚ) (contentLength textLength : Nat) : Bool :=
  let markupLength : ℤ := (contentLength : ℤ) - (textLength : ℤ)
  if 0 < markupLength then
    let ratio : ℚ := (textLength : ℚ) / (markupLength : ℚ)
    let effectiveThreshold : ℚ :=
      if 100000 < contentLength then minRatio * (1 / 2) else minRatio
    if ratio < effectiveThreshold then decide (contentLength < 50000)
    else false
  else false

/-- `ContentAnalyzer.is_skeleton_content`, with BeautifulSoup given by the
`parse` oracle.  Translated branch by branch from the source. -/
def isSkeletonContent (cfg : AnalyzerConfig) (parse : String → Option ParsedDoc)
    (html : String) : Bool × SkeletonReason :=
  if html == "" then (true, .emptyContent)
  else
    let contentLength := html.length
    if contentLength < cfg.minContentLength then (true, .contentTooShort)
    else
      match parse html with
      | none =>
        if cfg.minContentLength ≤ contentLength then (false, .validUnparseable)
        else (true, .unparseable)
      | some doc =>
        if doc.textLength < cfg.minTextLength then (true, .textTooShort)
        else if doc.meaningfulElements < cfg.minMeaningfulElements then
          (true, .tooFewMeaningful)
        else if ratioCheckFires cfg.textToMarkupRatio contentLength
            doc.textLength then
          (true, .lowRatio)
        else if 3 ≤ skeletonIndicatorCount html &&
            doc.textLength < cfg.minTextLength * 2 then
          (true, .manyIndicators)
        else if 20 < doc.divCount && doc.textLength < cfg.minTextLength * 3 then
          (true, .layoutHeavy)
        else (false, .valid)

/-- The spec's reading of the ratio rule for C8: effective ratio is the
configured threshold for pages of at most 50 KB and half the threshold
between 50 and 100 KB, with the check skipped above 100 KB.  This follows
the spec's words (not the source) and exists only to compare the two. -/
def specRatioPromotes (cfg : AnalyzerConfig) (contentLength textLength : Nat) : Bool :=
  let markupLength : ℤ := (contentLength : ℤ) - (textLength : ℤ)
  if 0 < markupLength then
    let ratio : ℚ := (textLength : ℚ) / (markupLength : ℚ)
    if contentLength ≤ 50000 then ratio < cfg.textToMarkupRatio
    else if contentLength ≤ 100000 then ratio < cfg.textToMarkupRatio * (1 / 2)
    else false
  else false

/-- The hardcoded whitelist of `is_custom_js_skeleton`. -/
def whitelistedDomains : List String :=
  ["myntra.com", "sangeethamobiles.com", "paiinternational.in", "myg.in",
   "darlingretail.com", "ajio.com", "xtepindia.com", "lakhanifootwear.com",
   "skechers.in", "somethingsbrewing.in", "shop.ttkprestige.com",
   "reliancedigital.in", "wonderchef.com",
   "domesticappliances.philips.co.in", "agarolifestyle.com", "naaptol.com",
   "rbzone.com"]

/-- `ContentAnalyzer.is_custom_js_skeleton`.  The empty-content check and the
whitelist short-circuit (a substring test of each whitelisted domain against
the lower-cased URL) are embedded directly from the source; the remaining
BeautifulSoup/regex analysis (source lines 206-347) is the `rest` oracle. -/
def isCustomJsSkeleton (rest : String → String → Bool × String)
    (html : String) (url : String) : Bool × String :=
  if html == "" then (true, "Empty content")
  else
    let matched :=
      if url == "" then none
      else whitelistedDomains.find? (fun domain => pyIn domain (strLower url))
    match matched with
    | some domain => (false, domain ++ " - accepting custom JS result")
    | none => rest html url

/-! ### The orchestrator `async_batch_fetcher.async_fetch_batch`

The three network tiers are abstracted by oracles collected in `FetchEnv`:

* `static` models `AsyncStaticXHRProcessor.process_batch`.  Modelled from
  the spec: that module is not among the sources at hand; per spec section
  4.2 it produces one record per input URL carrying `url`, `html`, `method`
  (`static` or `xhr`) and the classifier's `needs_js` bit.
* `render` models `AsyncMultiServiceJSRenderer.process_urls`.  Modelled
  from the spec: that module is not among the sources at hand; per spec
  section 4.3 it returns one `(url, html, status, error)` record per input
  URL; the oracle is indexed by the retry attempt so each round may answer
  differently.
* `skel` stands for `ContentAnalyzer.is_custom_js_skeleton` as invoked on
  `(html, url)`; the orchestrator theorems hold for every classifier.
* `decodo` stands for `AsyncDecodoFallback.process_urls` (that class is
  embedded in detail further below; orchestrator-level theorems quantify
  over its output).

`ResultAggregator` is modelled from the spec: that module is not among the
sources at hand; per spec section 4.5 it is an append-only collection whose
`add_result` appends one record, so the final `results` list holds the
records in the order the orchestrator added them. -/

/-- Method label assigned by the static/XHR tier (spec section 4.2). -/
inductive StaticMethod where
  | static
  | xhr
deriving DecidableEq

/-- The method string stored in a record. -/
def StaticMethod.str : StaticMethod → String
  | .static => "static"
  | .xhr => "xhr"

/-- Per-URL outcome of the static/XHR tier (spec section 4.2). -/
structure StaticOut where
  html : Option String
  method : StaticMethod
  needsJs : Bool
deriving DecidableEq

/-- Per-URL outcome of a renderer call (fields of spec section 4.3). -/
structure RenderOut where
  html : Option String
  status : String
  error : Option String
deriving DecidableEq

/-- A per-URL record as returned by `process_urls` of the renderer or the
Decodo fallback: keys `url`, `html`, `status`, `error`. -/
structure UrlResult where
  url : String
  html : Option String
  status : String
  error : Option String
deriving DecidableEq

/-- A record held by the result aggregator: arguments of `add_result`. -/
structure AggRecord where
  url : String
  html : Option String
  method : String
  status : String
  error : Option String
deriving DecidableEq

/-- Oracles standing for the network tiers and the HTML classifier. -/
structure FetchEnv where
  static : String → StaticOut
  render : Nat → String → RenderOut
  skel : String → String → Bool
  decodo : List String → List UrlResult

/-- The configuration fields of `BatchFetcherConfig` read by the embedded
control flow of `async_fetch_batch` (`custom_js_skip_domains` is stored
already normalized by `_normalize_domain_list`; the remaining fields tune
the network tiers, which are oracles here). -/
structure BatchFetcherConfig where
  customJsMaxRetries : Nat
  customJsSkipDomains : List String
  decodoEnabled : Bool
deriving DecidableEq

/-- Modelled from the spec: `AsyncMultiServiceJSRenderer.process_urls`
returns one record per input URL (spec section 4.3), here given by the
`render` oracle at the current attempt number. -/
def rendererProcessUrls (env : FetchEnv) (attempt : Nat) (urls : List String) :
    List UrlResult :=
  urls.map (fun u =>
    let o := env.render attempt u
    { url := u, html := o.html, status := o.status, error := o.error })

/-- Python truthiness of a record's `html` field. -/
def htmlTruthy (h : Option String) : Bool :=
  match h with
  | none => false
  | some s => !(s == "")

/-- Whether a renderer-round record joins `retry_urls` in the loop body of
`async_fetch_batch` (source lines 203-231): failed records always do;
successful records do exactly when their non-empty HTML is classified as
skeleton by `is_custom_js_skeleton`. -/
def needsRetry (skel : String → String → Bool) (r : UrlResult) : Bool :=
  if r.status == "success" then
    htmlTruthy r.html && skel (r.html.getD "") r.url
  else true

/-- The records the loop body appends to `custom_js_successful` in a round
(the single Python pass is split into two order-preserving filters). -/
def acceptedOf (skel : String → String → Bool) (rs : List UrlResult) :
    List UrlResult :=
  rs.filter (fun r => !needsRetry skel r)

/-- The `retry_urls` list a round hands to the next one. -/
def carryOf (skel : String → String → Bool) (rs : List UrlResult) :
    List String :=
  (rs.filter (needsRetry skel)).map (·.url)

/-- Result of the renderer retry loop: `accepted` is
`custom_js_successful`, `lastResults` is `phase2_results` after the loop,
`remaining` is `urls_to_process` after the loop, and `roundInputs` is the
ghost list of the URL lists actually handed to the renderer. -/
structure RetryOut where
  accepted : List UrlResult
  lastResults : List UrlResult
  remaining : List String
  roundInputs : List (List String)
deriving DecidableEq

/-- The retry loop of `async_fetch_batch` (source lines 191-240): up to
`fuel = custom_js_max_retries` rounds, stopping early when no URL needs a
retry.  `attempt` is the 1-based round counter. -/
def retryLoopGo (env : FetchEnv) :
    Nat → Nat → List String → List UrlResult → List UrlResult → RetryOut
  | 0, _, toProcess, acc, last =>
    { accepted := acc, lastResults := last, remaining := toProcess,
      roundInputs := [] }
  | fuel + 1, attempt, toProcess, acc, last =>
    if toProcess.isEmpty then
      { accepted := acc, lastResults := last, remaining := toProcess,
        roundInputs := [] }
    else
      let results := rendererProcessUrls env attempt toProcess
      let out := retryLoopGo env fuel (attempt + 1) (carryOf env.skel results)
        (acc ++ acceptedOf env.skel results) results
      { out with roundInputs := toProcess :: out.roundInputs }

/-- The sequence of URL lists the retry loop hands to the renderer, round
by round (the `roundInputs` ghost component of `retryLoopGo`, computed
directly). -/
def roundsGo (env : FetchEnv) : Nat → Nat → List String → List (List String)
  | 0, _, _ => []
  | fuel + 1, a, tp =>
    if tp.isEmpty then []
    else tp :: roundsGo env fuel (a + 1)
      (carryOf env.skel (rendererProcessUrls env a tp))

/-- Phase 1: one record per URL in input order (spec sections 4.2, 5). -/
def phase1 (env : FetchEnv) (urls : List String) : List (String × StaticOut) :=
  urls.map (fun u => (u, env.static u))

/-- The `js_urls` collected from phase 1 (source lines 121-125). -/
def jsUrlsOf (env : FetchEnv) (urls : List String) : List String :=
  ((phase1 env urls).filter (fun p => p.2.needsJs)).map (·.1)

/-- The skip-domain routing of `async_fetch_batch` (source lines 145-153):
`(decodo_direct_urls, filtered_js_urls)`. -/
def routeSkip (cfg : BatchFetcherConfig) (js : List String) :
    List String × List String :=
  if cfg.customJsSkipDomains.isEmpty then ([], js)
  else
    (js.filter (fun u => shouldSkipCustomJs u cfg.customJsSkipDomains),
     js.filter (fun u => !shouldSkipCustomJs u cfg.customJsSkipDomains))

/-- The retry-loop outcome for a batch (loop skipped when no URL remains
after skip-domain routing, which `retryLoopGo` reproduces on `[]`). -/
def retryOut (cfg : BatchFetcherConfig) (env : FetchEnv) (urls : List String) :
    RetryOut :=
  retryLoopGo env cfg.customJsMaxRetries 1
    (routeSkip cfg (jsUrlsOf env urls)).2 [] []

/-- `decodo_urls`: directly-skipped URLs plus the loop's residual. -/
def decodoUrlsOf (cfg : BatchFetcherConfig) (env : FetchEnv)
    (urls : List String) : List String :=
  (routeSkip cfg (jsUrlsOf env urls)).1 ++ (retryOut cfg env urls).remaining

/-- The record appended for a phase-3 (Decodo) result, source lines
321-328: `method` is `decodo` for successes and `custom_js` otherwise. -/
def phase3Record (r : UrlResult) : AggRecord :=
  { url := r.url, html := r.html,
    method := if r.status == "success" then "decodo" else "custom_js",
    status := r.status, error := r.error }

/-- `async_fetch_batch` (source lines 71-354): the final `results` list, in
the order the orchestrator passed records to `ResultAggregator.add_result`.
Timing, logging and file output are dropped; everything else follows the
source branch for branch. -/
def asyncFetchBatch (cfg : BatchFetcherConfig) (env : FetchEnv)
    (urls : List String) : List AggRecord :=
  let p1 := phase1 env urls
  let succ1 : List AggRecord := ((p1.filter (fun p => !p.2.needsJs)).map
    (fun p => { url := p.1, html := p.2.html, method := p.2.method.str,
                status := "success", error := none }))
  let routed := routeSkip cfg (jsUrlsOf env urls)
  if routed.2.isEmpty && routed.1.isEmpty then succ1
  else
    let out := retryOut cfg env urls
    let cjs : List AggRecord := out.accepted.map
      (fun r => { url := r.url, html := r.html, method := "custom_js",
                  status := "success", error := none })
    let decodoUrls := routed.1 ++ out.remaining
    let lastFailed : List AggRecord :=
      (out.lastResults.filter (fun r => r.status == "failed")).map
        (fun r => { url := r.url, html := none, method := "custom_js",
                    status := "failed", error := r.error })
    if decodoUrls.isEmpty then succ1 ++ cjs ++ lastFailed
    else if !cfg.decodoEnabled then
      succ1 ++ cjs ++ lastFailed ++ decodoUrls.map
        (fun u => { url := u, html := none, method := "decodo",
                    status := "failed",
                    error := some "Decodo fallback disabled" })
    else succ1 ++ cjs ++ (env.decodo decodoUrls).map phase3Record

/-! ### `async_decodo_fallback.AsyncDecodoFallback`

JSON payloads are modelled by an explicit `Json` type and Python's
truthiness / `in` / `len` semantics on them.  One HTTP poll interaction is
a `PollEvent`; the event stream per task id is part of `DecodoEnv`.
Python exceptions raised while handling a response (for example `in` or
`len` on an unsupported type, or `.get` on a non-dict) surface as
`Except.error` and are caught by the loop's final `except Exception`
handler exactly as in the source.  Diagnostic message strings are
abstracted to structured `PollErr` values (non-string diagnostic payloads
are abstracted to `none`). -/

/-- A JSON value. -/
inductive Json where
  | null
  | bool (b : Bool)
  | num (n : Int)
  | str (s : String)
  | arr (xs : List Json)
  | obj (kvs : List (String × Json))

/-- Python truthiness of a JSON value. -/
def Json.truthy : Json → Bool
  | .null => false
  | .bool b => b
  | .num n => !(n == 0)
  | .str s => !(s == "")
  | .arr xs => !xs.isEmpty
  | .obj kvs => !kvs.isEmpty

/-- Python `dict.get` (first binding; Python dict keys are unique). -/
def Json.get? (j : Json) (k : String) : Option Json :=
  match j with
  | .obj kvs => kvs.lookup k
  | _ => none

/-- A `d.get(k)` operand of a Python `or` chain: the value when truthy.
(The chain's final falsy value behaves like `None` at every call site
modelled here, so it is collapsed to `none`.) -/
def Json.getTruthy (j : Json) (k : String) : Option Json :=
  match j.get? k with
  | some v => if v.truthy then some v else none
  | none => none

/-- A truthy string field (non-string diagnostic payloads abstracted). -/
def Json.getStrTruthy (j : Json) (k : String) : Option String :=
  match j.get? k with
  | some (.str s) => if s == "" then none else some s
  | _ => none

/-- Python `k in j`: key test on dicts, membership on lists, substring on
strings; `none` models the `TypeError` raised on other types. -/
def Json.pyContains? (j : Json) (k : String) : Option Bool :=
  match j with
  | .obj kvs => some (kvs.any (fun kv => kv.1 == k))
  | .arr xs => some (xs.any (fun x => match x with
      | .str s => s == k
      | _ => false))
  | .str s => some (pyIn k s)
  | _ => none

/-- Python `len`; `none` models the `TypeError` on unsized values. -/
def Json.pyLen? : Json → Option Nat
  | .str s => some s.length
  | .arr xs => some xs.length
  | .obj kvs => some kvs.length
  | _ => none

/-- Python `str` of a task id (ids are strings or numbers in practice;
container reprs are abstracted). -/
def pyStr : Json → String
  | .str s => s
  | .num n => toString n
  | .bool b => if b then "True" else "False"
  | .null => "None"
  | _ => ""

/-- The string value of `j.get("url", "")` (non-string values abstracted;
the orchestration overwrites this field before results are returned). -/
def Json.urlStr (j : Json) : String :=
  match j.get? "url" with
  | some (.str s) => s
  | _ => ""

/-- Python `orig or fallback` for the optional original URL. -/
def pyOrStr (orig : Option String) (fallback : String) : String :=
  match orig with
  | some s => if s == "" then fallback else s
  | none => fallback

/-- Structured stand-ins for the error strings built in
`_poll_task_result` and `process_urls`. -/
inductive PollErr where
  | serverError (status : Nat) (attempts : Nat)
  | clientError (status : Nat)
  | unexpectedStatus (status : Nat) (attempts : Nat)
  | invalidJsonContentType (attempts : Nat)
  | jsonParseError (attempts : Nat)
  | decodoTaskFailed (msg : Option String)
  | resultFailed (msg : Option String)
  | noHtmlContent (msg : Option String)
  | requestTimeout (attempts : Nat)
  | networkError (attempts : Nat)
  | unexpectedError (msg : String)
  | pollingTimeout
  | submitError (msg : String)
  | noTaskIds
  | noTaskIdAssigned
  | credentialsNotConfigured
deriving DecidableEq

/-- A result record of the Decodo module (`html` keeps the JSON value the
code extracted, a string in practice). -/
structure DecodoRecord where
  url : String
  html : Option Json
  status : String
  error : Option PollErr

/-- The body handed back by one poll response. -/
inductive PollBody where
  | jsonContentTypeError
  | jsonDecodeError
  | jsonOk (data : Json)

/-- One iteration's interaction of `_poll_task_result` with the network:
a response with a status code (body inspected only on 200), or one of the
exceptions caught around the request. -/
inductive PollEvent where
  | http (status : Nat) (body : PollBody)
  | reqTimeout
  | netError
  | exn (msg : String)

/-- The mutable loop state of `_poll_task_result`. -/
structure PollState where
  waited : ℚ
  interval : ℚ
  consec : Nat
deriving DecidableEq

/-- Outcome of classifying a 200 JSON body (source lines 348-422). -/
inductive Classified where
  | term (html : Option Json) (status : String) (error : Option PollErr)
      (dataUrl : String)
  | processing

/-- Lines 394-416: fall back to top-level `html`/`content`/`text`, then
succeed on truthy sized HTML or fail with "no HTML content". -/
def finishHtml (data : Json) (html1 : Option Json) : Except String Classified :=
  let html : Option Json :=
    match html1 with
    | some h => some h
    | none =>
      match data with
      | .obj _ => (data.getTruthy "html") <|> (data.getTruthy "content") <|>
          (data.getTruthy "text")
      | _ => none
  let noHtml : Except String Classified :=
    match data with
    | .obj _ =>
      let msg : Option String :=
        match data.get? "error" with
        | some (.obj kvs) => (Json.obj kvs).getStrTruthy "message"
        | some (.str s) => if s == "" then none else some s
        | _ => none
      .ok (.term none "failed" (some (.noHtmlContent msg)) data.urlStr)
    | _ => .error "AttributeError"
  match html with
  | some h =>
    if h.truthy then
      match h.pyLen? with
      | some n => if 0 < n then .ok (.term (some h) "success" none data.urlStr)
          else noHtml
      | none => .error "TypeError"
    else noHtml
  | none => noHtml

/-- Lines 371-416: extraction once the task counts as completed.  Format 1
reads the first entry of a truthy `results` list (a `.get` on a non-dict
entry raises, as in Python). -/
def extractDone (data : Json) : Except String Classified :=
  match data with
  | .obj _ =>
    if (data.pyContains? "results").getD false then
      match data.get? "results" with
      | some rl =>
        if rl.truthy then
          match rl with
          | .arr (r0 :: _) =>
            match r0 with
            | .obj _ =>
              let html1 := (r0.getTruthy "content") <|> (r0.getTruthy "html")
                <|> (r0.getTruthy "text")
              let failed1 :=
                match r0.get? "status" with
                | some (.str s) => s == "failed"
                | _ => false
              if failed1 then
                .ok (.term none "failed"
                  (some (.resultFailed (r0.getStrTruthy "error"))) r0.urlStr)
              else finishHtml data html1
            | _ => .error "AttributeError"
          | _ => finishHtml data none
        else finishHtml data none
      | none => finishHtml data none
    else finishHtml data none
  | _ => finishHtml data none

/-- Lines 348-422: classify a parsed 200 body as a terminal outcome or as
still processing.  `Except.error` models an exception reaching the loop's
final `except Exception` handler. -/
def classify200 (data : Json) : Except String Classified :=
  let status : Option Json :=
    match data with
    | .obj _ => (data.getTruthy "status") <|> (data.getTruthy "state")
    | _ => none
  let statusFailed :=
    match status with
    | some (.str s) => s == "failed" || s == "error"
    | _ => false
  if statusFailed then
    let fromError : Option String :=
      match data.get? "error" with
      | some (.obj kvs) => ((Json.obj kvs).getStrTruthy "message") <|>
          ((Json.obj kvs).getStrTruthy "error")
      | some (.str s) => if s == "" then none else some s
      | _ => none
    .ok (.term none "failed"
      (some (.decodoTaskFailed (fromError <|> data.getStrTruthy "message")))
      data.urlStr)
  else
    let statusDone :=
      match status with
      | some (.str s) => s == "done"
      | _ => false
    if statusDone then extractDone data
    else
      match data.pyContains? "results" with
      | none => .error "TypeError"
      | some true => extractDone data
      | some false =>
        match data.pyContains? "result" with
        | none => .error "TypeError"
        | some true => extractDone data
        | some false =>
          match data.pyContains? "data" with
          | none => .error "TypeError"
          | some true => extractDone data
          | some false => .ok .processing

/-- One step result of the polling loop. -/
inductive StepRes where
  | done (r : DecodoRecord)
  | cont (st : PollState)

/-- Advance the backoff state: sleep `interval`, then scale it by `factor`
capped at 10 seconds (source pattern `interval = min(interval * f, 10.0)`),
with the new consecutive-error count. -/
def PollState.advance (st : PollState) (factor : ℚ) (consec : Nat) : PollState :=
  { waited := st.waited + st.interval,
    interval := min (st.interval * factor) 10,
    consec := consec }

/-- The loop body of `_poll_task_result` (source lines 246-463) for one
event, translated branch for branch. -/
def pollStep (orig : Option String) (ev : PollEvent) (st : PollState) : StepRes :=
  match ev with
  | .http s body =>
    if s == 404 || s == 204 then
      .cont (st.advance (6 / 5) 0)
    else if 500 ≤ s && s < 600 then
      let c := st.consec + 1
      if 5 ≤ c then
        .done { url := pyOrStr orig "", html := none, status := "failed",
                error := some (.serverError s c) }
      else .cont (st.advance (3 / 2) c)
    else if 400 ≤ s && s < 500 then
      .done { url := pyOrStr orig "", html := none, status := "failed",
              error := some (.clientError s) }
    else if !(s == 200) then
      let c := st.consec + 1
      if 5 ≤ c then
        .done { url := pyOrStr orig "", html := none, status := "failed",
                error := some (.unexpectedStatus s c) }
      else .cont (st.advance (3 / 2) c)
    else
      match body with
      | .jsonContentTypeError =>
        let c := st.consec + 1
        if 5 ≤ c then
          .done { url := pyOrStr orig "", html := none, status := "failed",
                  error := some (.invalidJsonContentType c) }
        else .cont (st.advance (3 / 2) c)
      | .jsonDecodeError =>
        let c := st.consec + 1
        if 5 ≤ c then
          .done { url := pyOrStr orig "", html := none, status := "failed",
                  error := some (.jsonParseError c) }
        else .cont (st.advance (3 / 2) c)
      | .jsonOk data =>
        match classify200 data with
        | .error e =>
          .done { url := pyOrStr orig "", html := none, status := "failed",
                  error := some (.unexpectedError e) }
        | .ok (.term html st2 err dataUrl) =>
          .done { url := pyOrStr orig dataUrl, html := html, status := st2,
                  error := err }
        | .ok .processing => .cont (st.advance (6 / 5) 0)
  | .reqTimeout =>
    let c := st.consec + 1
    if 5 ≤ c then
      .done { url := pyOrStr orig "", html := none, status := "failed",
              error := some (.requestTimeout c) }
    else .cont (st.advance (3 / 2) c)
  | .netError =>
    let c := st.consec + 1
    if 5 ≤ c then
      .done { url := pyOrStr orig "", html := none, status := "failed",
              error := some (.networkError c) }
    else .cont (st.advance (3 / 2) c)
  | .exn msg =>
    .done { url := pyOrStr orig "", html := none, status := "failed",
            error := some (.unexpectedError msg) }

/-- The record returned when the `while waited < max_wait` guard fails
(source lines 465-472). -/
def timeoutRecord (orig : Option String) : DecodoRecord :=
  { url := pyOrStr orig "", html := none, status := "failed",
    error := some .pollingTimeout }

/-- The polling loop, with explicit fuel: `none` means the modelled horizon
was exhausted without the Python loop having terminated (possible only for
a nonpositive poll interval, where the Python loop can run forever). -/
def pollGo (orig : Option String) (events : Nat → PollEvent) (maxWait : ℚ) :
    Nat → Nat → PollState → Option DecodoRecord
  | 0, _, _ => none
  | fuel + 1, n, st =>
    if st.waited < maxWait then
      match pollStep orig (events n) st with
      | .done r => some r
      | .cont st2 => pollGo orig events maxWait fuel (n + 1) st2
    else some (timeoutRecord orig)

/-- The constructor arguments of `AsyncDecodoFallback.__init__` that the
instance stores (credentials come from the environment; seconds as
rationals). -/
structure DecodoConfig where
  timeout : ℚ
  headlessMode : String
  location : Option String
  language : Option String
  target : String
  deviceType : String
  apiEndpoint : Option String
  resultsEndpoint : Option String
  pollInterval : ℚ
  maxPollAttempts : Nat
  maxConcurrent : Nat
  username : Option String
  password : Option String
  basicAuthToken : Option String

/-- Fuel sufficient for the polling loop whenever the poll interval is
positive: each non-terminal iteration adds at least
`min pollInterval 10` to `waited`. -/
def pollFuel (cfg : DecodoConfig) : Nat :=
  if cfg.pollInterval ≤ 0 then 1
  else Nat.ceil (cfg.timeout / min cfg.pollInterval 10) + 1

/-- `_poll_task_result` for one task id, given its event stream. -/
def pollTaskResult (cfg : DecodoConfig) (events : Nat → PollEvent)
    (orig : Option String) : Option DecodoRecord :=
  pollGo orig events cfg.timeout (pollFuel cfg) 0
    { waited := 0, interval := cfg.pollInterval, consec := 0 }

/-- Whether an event is a "not ready" 404/204 response. -/
def isNotReady : PollEvent → Bool
  | .http s _ => s == 404 || s == 204
  | _ => false

/-- Python dict assignment `m[k] = v`: update in place or append. -/
def pyDictInsert (m : List (String × Option String)) (k : String)
    (v : Option String) : List (String × Option String) :=
  if m.any (fun kv => kv.1 == k) then
    m.map (fun kv => if kv.1 == k then (k, v) else kv)
  else m ++ [(k, v)]

/-- The `task_entries` selection of `_extract_task_ids`
(source lines 193-204). -/
def taskEntries (batch : Json) : List Json :=
  match batch with
  | .obj _ =>
    match batch.get? "queries" with
    | some (.arr xs) => xs
    | _ =>
      match batch.get? "tasks" with
      | some (.arr xs) => xs
      | _ =>
        if (match batch.get? "id" with
            | some (.str _) => true
            | some (.num _) => true
            | _ => false) && (batch.pyContains? "url").getD false
        then [batch] else []
  | .arr xs => xs
  | _ => []

/-- `_extract_task_ids` (source lines 180-217): an insertion-ordered map
from task id to the entry's URL (kept when it is a truthy string; a truthy
non-string URL value can never match an input URL downstream and is
abstracted to `none`). -/
def extractTaskIds (batch : Json) : List (String × Option String) :=
  (taskEntries batch).foldl (fun m entry =>
    match entry with
    | .obj _ =>
      let tid := (entry.getTruthy "id") <|> (entry.getTruthy "task_id") <|>
        (entry.getTruthy "query_id")
      match tid with
      | some t =>
        pyDictInsert m (pyStr t)
          ((entry.getStrTruthy "url") <|> (entry.getStrTruthy "query"))
      | none => m
    | .str s => pyDictInsert m s none
    | _ => m) []

/-- Network oracles for the Decodo module: the value of `batch_response`
(`_submit_batch` yields either the submit endpoint's JSON or an
`{error: ...}` dict it builds itself) and one poll-event stream per task
id. -/
structure DecodoEnv where
  submitResult : Json
  events : String → Nat → PollEvent

/-- `AsyncDecodoFallback.process_urls` (source lines 474-601).  The result
list holds one entry per input URL in order; an entry is `none` when its
poll loop exceeded the modelled horizon, and `Except.error` models an
uncaught exception (e.g. `"error" in batch_response` on a non-container). -/
def decodoProcessUrls (cfg : DecodoConfig) (env : DecodoEnv)
    (urls : List String) : Except String (List (Option DecodoRecord)) :=
  if urls.isEmpty then .ok []
  else if !(optStrTruthy cfg.basicAuthToken) &&
      (!(optStrTruthy cfg.username) || !(optStrTruthy cfg.password)) then
    .ok (urls.map (fun u => some
      { url := u, html := none, status := "failed",
        error := some .credentialsNotConfigured }))
  else
    let batch := env.submitResult
    match batch.pyContains? "error" with
    | none => .error "TypeError"
    | some true =>
      match batch with
      | .obj _ =>
        let msg :=
          match batch.get? "error" with
          | some (.str s) => s
          | some _ => ""
          | none => "Failed to submit batch to Decodo API"
        .ok (urls.map (fun u => some
          { url := u, html := none, status := "failed",
            error := some (.submitError msg) }))
      | _ => .error "AttributeError"
    | some false =>
      let taskMap := extractTaskIds batch
      if taskMap.isEmpty then
        .ok (urls.map (fun u => some
          { url := u, html := none, status := "failed",
            error := some .noTaskIds }))
      else
        let pollResults : List (String × Option DecodoRecord) :=
          taskMap.map (fun kv => (kv.1, pollTaskResult cfg (env.events kv.1) kv.2))
        let urlToTaskId : String → Option String := fun u =>
          taskMap.foldl (fun acc kv =>
            match kv.2 with
            | some v => if !(v == "") && v == u then some kv.1 else acc
            | none => acc) none
        .ok (urls.map (fun u =>
          match urlToTaskId u with
          | some tid =>
            match pollResults.lookup tid with
            | some (some r) => some { r with url := u }
            | some none => none
            | none => some
                { url := u, html := none, status := "failed",
                  error := some .noTaskIdAssigned }
          | none => some
              { url := u, html := none, status := "failed",
                error := some .noTaskIdAssigned }))

/-! ### Concrete fixtures for witnesses and counterexamples -/

/-- A static tier sending `"a"` to the JS tier and answering `"b"`. -/
def staticAB : String → StaticOut := fun u =>
  if u == "a" then { html := none, method := .static, needsJs := true }
  else { html := some "H", method := .static, needsJs := false }

/-- A Decodo tier failing every URL. -/
def decodoAllFail : List String → List UrlResult := fun us =>
  us.map (fun u =>
    { url := u, html := none, status := "failed", error := some "boom" })

/-- Environment whose renderer succeeds with non-skeleton HTML. -/
def envOrder : FetchEnv :=
  { static := staticAB,
    render := fun _ _ => { html := some "X", status := "success", error := none },
    skel := fun _ _ => false,
    decodo := decodoAllFail }

/-- Environment whose renderer fails every URL every round. -/
def envFail : FetchEnv :=
  { static := staticAB,
    render := fun _ _ => { html := none, status := "failed", error := some "E" },
    skel := fun _ _ => false,
    decodo := decodoAllFail }

/-- Environment whose renderer fails in round 1 and succeeds afterwards. -/
def envRetry : FetchEnv :=
  { static := staticAB,
    render := fun attempt _ =>
      if attempt == 1 then { html := none, status := "failed", error := some "E" }
      else { html := some "X", status := "success", error := none },
    skel := fun _ _ => false,
    decodo := decodoAllFail }

/-- A static tier promoting every URL to the JS tier. -/
def staticAllJs : String → StaticOut := fun _ =>
  { html := none, method := .static, needsJs := true }

/-- Environment promoting everything, with a failing renderer. -/
def envSkip : FetchEnv :=
  { static := staticAllJs,
    render := fun _ _ => { html := none, status := "failed", error := some "E" },
    skel := fun _ _ => false,
    decodo := decodoAllFail }

/-- One renderer round, skip list `jiomart.com`, Decodo enabled. -/
def cfgSkip : BatchFetcherConfig :=
  { customJsMaxRetries := 1, customJsSkipDomains := ["jiomart.com"],
    decodoEnabled := true }

/-- One renderer round, no skip domains, Decodo enabled. -/
def cfgOn : BatchFetcherConfig :=
  { customJsMaxRetries := 1, customJsSkipDomains := [], decodoEnabled := true }

/-- One renderer round, no skip domains, Decodo disabled. -/
def cfgOff : BatchFetcherConfig :=
  { customJsMaxRetries := 1, customJsSkipDomains := [], decodoEnabled := false }

/-- Analyzer thresholds exercising the ratio rule. -/
def cfgRatio : AnalyzerConfig :=
  { minContentLength := 10, minTextLength := 10, minMeaningfulElements := 0,
    textToMarkupRatio := (1 : ℚ) / 10 }

/-- A 60000-character page (between the 50 KB and 100 KB landmarks). -/
def htmlBig : String := String.mk (List.replicate 60000 'x')

/-- Parse oracle reporting 300 characters of text and no divs. -/
def parseBig : String → Option ParsedDoc := fun _ =>
  some { textLength := 300, meaningfulElements := 5, divCount := 0 }

/-- A 200-character page (well under the 50 KB landmark). -/
def htmlSmall : String := String.mk (List.replicate 200 'x')

/-- Parse oracle reporting 10 characters of text and no divs. -/
def parseSmall : String → Option ParsedDoc := fun _ =>
  some { textLength := 10, meaningfulElements := 5, divCount := 0 }

/-- A Decodo configuration with a 5-second deadline and 2-second interval. -/
def cfgPoll : DecodoConfig :=
  { timeout := 5, headlessMode := "html", location := none, language := none,
    target := "universal", deviceType := "desktop", apiEndpoint := none,
    resultsEndpoint := none, pollInterval := 2, maxPollAttempts := 30,
    maxConcurrent := 50, username := some "u", password := some "p",
    basicAuthToken := none }

/-- `cfgPoll` with a different `max_poll_attempts`. -/
def cfgPoll7 : DecodoConfig := { cfgPoll with maxPollAttempts := 7 }

/-- A Decodo network oracle: one task id, a done-with-content poll. -/
def envDecodo : DecodoEnv :=
  { submitResult := Json.obj [("queries", Json.arr
      [Json.obj [("id", Json.str "T1"), ("url", Json.str "https://x.example/")]])],
    events := fun _ _ => PollEvent.http 200 (PollBody.jsonOk (Json.obj
      [("status", Json.str "done"),
       ("results", Json.arr [Json.obj [("content", Json.str "<p>ok</p>")]])])) }

/-! ## Theorems -/

/-- C10: in `is_custom_js_skeleton`, whitelist matching is a
case-insensitive substring test of the hardcoded domain list against the
whole URL string: every URL containing a whitelisted string anywhere is
accepted (verdict `false`) for any non-empty HTML, with all skeleton
checks (the `rest` oracle) skipped. -/
theorem c10_whitelist_is_substring_test :
    ∀ (rest : String → String → Bool × String) (html url : String),
      ¬(html = "") →
      (∃ d ∈ whitelistedDomains, pyIn d (strLower url) = true) →
      (isCustomJsSkeleton rest html url).1 = false := by
  intro rest html url hh hex
  obtain ⟨d, hd, hpy⟩ := hex
  have hu : ¬(url = "") := by
    intro h
    subst h
    fin_cases hd <;> exact absurd hpy (by decide)
  have h1 : (html == "") = false := beq_eq_false_iff_ne.mpr hh
  have h2 : (url == "") = false := beq_eq_false_iff_ne.mpr hu
  have hsome : (whitelistedDomains.find?
      (fun domain => pyIn domain (strLower url))).isSome :=
    List.find?_isSome.mpr ⟨d, hd, hpy⟩
  obtain ⟨dm, hdm⟩ := Option.isSome_iff_exists.mp hsome
  simp [isCustomJsSkeleton, h1, h2, hdm]

/-- Witness for C10 at a URL carrying `myg.in` only in its query string. -/
theorem c10_witness :
    (isCustomJsSkeleton (fun _ _ => (true, "skeleton")) "<p>x</p>"
      "https://evil.example/?q=myg.in").1 = false :=
  c10_whitelist_is_substring_test _ _ _ (by decide)
    ⟨"myg.in", by decide, by decide⟩

/-- C6: in `_poll_task_result`, a 404 or 204 response continues polling
with the consecutive-error counter reset to zero; any other 4xx response
terminates immediately with a failed record; a 5xx response increments the
counter, failing the task once 5 consecutive errors accumulate. -/
theorem c6_poll_status_classification :
    ∀ (orig : Option String) (st : PollState) (body : PollBody) (s : Nat),
      ((s = 404 ∨ s = 204) →
        pollStep orig (.http s body) st = .cont (st.advance (6 / 5) 0)) ∧
      (400 ≤ s → s < 500 → s ≠ 404 →
        pollStep orig (.http s body) st = .done
          { url := pyOrStr orig "", html := none, status := "failed",
            error := some (.clientError s) }) ∧
      (500 ≤ s → s < 600 → st.consec + 1 < 5 →
        pollStep orig (.http s body) st =
          .cont (st.advance (3 / 2) (st.consec + 1))) ∧
      (500 ≤ s → s < 600 → 5 ≤ st.consec + 1 →
        pollStep orig (.http s body) st = .done
          { url := pyOrStr orig "", html := none, status := "failed",
            error := some (.serverError s (st.consec + 1)) }) := by
  intro orig st body s
  refine ⟨?_, ?_, ?_, ?_⟩
  · rintro (rfl | rfl) <;> simp [pollStep]
  · intro h1 h2 h3
    have e1 : (s == 404 || s == 204) = false := by
      rw [Bool.or_eq_false_iff]
      constructor <;> rw [beq_eq_false_iff_ne] <;> omega
    have e2 : (decide (500 ≤ s) && decide (s < 600)) = false := by
      simp only [Bool.and_eq_false_iff, decide_eq_false_iff_not]
      omega
    have e3 : (decide (400 ≤ s) && decide (s < 500)) = true := by
      simp only [Bool.and_eq_true, decide_eq_true_eq]
      exact ⟨h1, h2⟩
    simp [pollStep, e1, e2, e3]
  · intro h1 h2 h3
    have e1 : (s == 404 || s == 204) = false := by
      rw [Bool.or_eq_false_iff]
      constructor <;> rw [beq_eq_false_iff_ne] <;> omega
    have e2 : (decide (500 ≤ s) && decide (s < 600)) = true := by
      simp only [Bool.and_eq_true, decide_eq_true_eq]
      exact ⟨h1, h2⟩
    have e4 : ¬(5 ≤ st.consec + 1) := by omega
    simp [pollStep, e1, e2, e4]
  · intro h1 h2 h3
    have e1 : (s == 404 || s == 204) = false := by
      rw [Bool.or_eq_false_iff]
      constructor <;> rw [beq_eq_false_iff_ne] <;> omega
    have e2 : (decide (500 ≤ s) && decide (s < 600)) = true := by
      simp only [Bool.and_eq_true, decide_eq_true_eq]
      exact ⟨h1, h2⟩
    simp [pollStep, e1, e2, h3]

/-- Witness for C6 at statuses 404, 403 and 503. -/
theorem c6_witness :
    pollStep none (.http 404 .jsonDecodeError) ⟨0, 2, 3⟩ =
      .cont ((⟨0, 2, 3⟩ : PollState).advance (6 / 5) 0) ∧
    pollStep none (.http 403 .jsonDecodeError) ⟨0, 2, 0⟩ = .done
      { url := pyOrStr none "", html := none, status := "failed",
        error := some (.clientError 403) } ∧
    pollStep none (.http 503 .jsonDecodeError) ⟨0, 2, 0⟩ =
      .cont ((⟨0, 2, 0⟩ : PollState).advance (3 / 2) 1) ∧
    pollStep none (.http 503 .jsonDecodeError) ⟨0, 2, 4⟩ = .done
      { url := pyOrStr none "", html := none, status := "failed",
        error := some (.serverError 503 5) } :=
  ⟨(c6_poll_status_classification none ⟨0, 2, 3⟩ .jsonDecodeError 404).1
      (Or.inl rfl),
   (c6_poll_status_classification none ⟨0, 2, 0⟩ .jsonDecodeError 403).2.1
      (by decide) (by decide) (by decide),
   (c6_poll_status_classification none ⟨0, 2, 0⟩ .jsonDecodeError 503).2.2.1
      (by decide) (by decide) (by decide),
   (c6_poll_status_classification none ⟨0, 2, 4⟩ .jsonDecodeError 503).2.2.2
      (by decide) (by decide) (by decide)⟩

/-- A static-tier method label is never `decodo` (helper). -/
theorem staticMethod_str_ne_decodo (m : StaticMethod) : m.str ≠ "decodo" := by
  cases m <;> decide

/-- C2 (amended): with `decodo_enabled = false`, every record carrying
method `decodo` is the failure record the disabled branch emits (status
`failed`, error `Decodo fallback disabled`); in particular no successful
record carries method `decodo`.  (As stated, the claim is refuted by
`c2_counterexample`: the disabled branch does emit `decodo` records.) -/
theorem c2_disabled_decodo_records (cfg : BatchFetcherConfig) (env : FetchEnv)
    (urls : List String) (hd : cfg.decodoEnabled = false) :
    ∀ r ∈ asyncFetchBatch cfg env urls, r.method = "decodo" →
      r.status = "failed" ∧ r.error = some "Decodo fallback disabled" := by
  have hcd : ("custom_js" : String) ≠ "decodo" := by decide
  intro r hr hm
  simp only [asyncFetchBatch] at hr
  split at hr
  · obtain ⟨p, hp, rfl⟩ := List.mem_map.mp hr
    exact absurd hm (staticMethod_str_ne_decodo _)
  · rw [hd] at hr
    split at hr
    · simp only [List.append_assoc, List.mem_append, List.mem_map] at hr
      rcases hr with ⟨p, hp, rfl⟩ | ⟨p, hp, rfl⟩ | ⟨p, hp, rfl⟩
      · exact absurd hm (staticMethod_str_ne_decodo _)
      · exact absurd hm hcd
      · exact absurd hm hcd
    · rw [if_pos Bool.not_false] at hr
      simp only [List.append_assoc, List.mem_append, List.mem_map] at hr
      rcases hr with ⟨p, hp, rfl⟩ | ⟨p, hp, rfl⟩ | ⟨p, hp, rfl⟩ | ⟨u, hu, rfl⟩
      · exact absurd hm (staticMethod_str_ne_decodo _)
      · exact absurd hm hcd
      · exact absurd hm hcd
      · exact ⟨rfl, rfl⟩

/-- Witness for C2 applied to the `decodo`-labelled record of a concrete
disabled run. -/
theorem c2_witness :
    ({ url := "a", html := none, method := "decodo", status := "failed",
       error := some "Decodo fallback disabled" } : AggRecord).status =
        "failed" ∧
    ({ url := "a", html := none, method := "decodo", status := "failed",
       error := some "Decodo fallback disabled" } : AggRecord).error =
        some "Decodo fallback disabled" :=
  c2_disabled_decodo_records cfgOff envFail ["a", "b"] rfl _ (by decide) rfl

/-- Counterexample to C2 as stated: with Decodo disabled, a batch whose URL
`"a"` exhausts the renderer produces a record whose method is `decodo`. -/
theorem c2_counterexample :
    (asyncFetchBatch cfgOff envFail ["a", "b"]).any
      (fun r => r.method == "decodo") = true := by decide

/-- C3 (amended): with `decodo_enabled = true`, a record carries method
`decodo` only when its status is `success`, and every failed record in the
final output carries method `custom_js`: the source attributes residual
(phase 3) failures to `custom_js`, not to `decodo` (claim refuted by
`c3_counterexample`). -/
theorem c3_phase3_failures_are_custom_js (cfg : BatchFetcherConfig)
    (env : FetchEnv) (urls : List String) (hd : cfg.decodoEnabled = true) :
    ∀ r ∈ asyncFetchBatch cfg env urls,
      (r.method = "decodo" → r.status = "success") ∧
      (r.status = "failed" → r.method = "custom_js") := by
  have hcd : ("custom_js" : String) ≠ "decodo" := by decide
  have hsf : ("success" : String) ≠ "failed" := by decide
  intro r hr
  simp only [asyncFetchBatch] at hr
  split at hr
  · obtain ⟨p, hp, rfl⟩ := List.mem_map.mp hr
    exact ⟨fun hm => absurd hm (staticMethod_str_ne_decodo _),
           fun hs => absurd hs hsf⟩
  · rw [hd] at hr
    split at hr
    · simp only [List.append_assoc, List.mem_append, List.mem_map] at hr
      rcases hr with ⟨p, hp, rfl⟩ | ⟨p, hp, rfl⟩ | ⟨p, hp, rfl⟩
      · exact ⟨fun hm => absurd hm (staticMethod_str_ne_decodo _),
               fun hs => absurd hs hsf⟩
      · exact ⟨fun hm => absurd hm hcd, fun hs => absurd hs hsf⟩
      · exact ⟨fun hm => absurd hm hcd, fun _ => rfl⟩
    · rw [if_neg (by simp)] at hr
      simp only [List.append_assoc, List.mem_append, List.mem_map] at hr
      rcases hr with ⟨p, hp, rfl⟩ | ⟨p, hp, rfl⟩ | ⟨p, hp, rfl⟩
      · exact ⟨fun hm => absurd hm (staticMethod_str_ne_decodo _),
               fun hs => absurd hs hsf⟩
      · exact ⟨fun hm => absurd hm hcd, fun hs => absurd hs hsf⟩
      · refine ⟨fun hm => ?_, fun hs => ?_⟩
        · by_cases h : p.status == "success"
          · exact beq_iff_eq.mp h
          · simp [phase3Record, h] at hm
        · have hs2 : p.status = "failed" := hs
          have h : (p.status == "success") = false := by
            rw [beq_eq_false_iff_ne]
            intro h2
            exact hsf (h2 ▸ hs2)
          simp [phase3Record, h]

/-- Witness for C3: the residual URL `"a"` fails in phase 3 of a concrete
enabled run and its record is labelled `custom_js`. -/
theorem c3_witness :
    ({ url := "a", html := none, method := "custom_js", status := "failed",
       error := some "boom" } : AggRecord).method = "custom_js" :=
  (c3_phase3_failures_are_custom_js cfgOn envFail ["a"] rfl _ (by decide)).2 rfl

/-- Counterexample to C3 as stated: in a concrete enabled run the residual
URL `"a"` fails at the provider tier, yet no failed record carries method
`decodo`; the failed record carries `custom_js`. -/
theorem c3_counterexample :
    (asyncFetchBatch cfgOn envFail ["a"]).any
        (fun r => r.status == "failed" && r.method == "decodo") = false ∧
    (asyncFetchBatch cfgOn envFail ["a"]).map
        (fun r => (r.url, r.method, r.status)) =
      [("a", "custom_js", "failed")] := by
  constructor <;> decide

/-- The ratio block fires iff there is positive markup, the ratio is below
the (unhalved) threshold, and the page is strictly below 50000 characters
(helper; when the page is that small the 100 KB halving cannot apply). -/
theorem ratioCheckFires_iff (m : ℚ) (c t : Nat) :
    ratioCheckFires m c t = true ↔
      (t < c ∧ (t : ℚ) / ((c : ℚ) - (t : ℚ)) < m ∧ c < 50000) := by
  have hcast : (((c : ℤ) - (t : ℤ) : ℤ) : ℚ) = (c : ℚ) - (t : ℚ) := by
    push_cast
    ring
  unfold ratioCheckFires
  by_cases hmk : (0 : ℤ) < (c : ℤ) - (t : ℤ)
  · have htc : t < c := by omega
    rw [if_pos hmk, hcast]
    by_cases h100 : 100000 < c
    · have hc50 : ¬(c < 50000) := by omega
      simp [hc50]
    · rw [if_neg h100]
      by_cases hr : (t : ℚ) / ((c : ℚ) - (t : ℚ)) < m
      · simp [hr, htc]
      · simp [hr]
  · rw [if_neg hmk]
    have : ¬(t < c) := by omega
    simp [this]

/-- Once the empty/length/text/meaningful checks pass, the skeleton verdict
is the low-ratio one exactly when the ratio block fires (helper). -/
theorem isSkeletonContent_lowRatio_iff (cfg : AnalyzerConfig)
    (parse : String → Option ParsedDoc) (html : String) (d : ParsedDoc)
    (hp : parse html = some d) (h1 : ¬(html = ""))
    (h2 : cfg.minContentLength ≤ html.length)
    (h4 : cfg.minTextLength ≤ d.textLength)
    (h5 : cfg.minMeaningfulElements ≤ d.meaningfulElements) :
    isSkeletonContent cfg parse html = (true, .lowRatio) ↔
      ratioCheckFires cfg.textToMarkupRatio html.length d.textLength = true := by
  have c1 : ¬((html == "") = true) := fun h => h1 (beq_iff_eq.mp h)
  simp only [isSkeletonContent, hp]
  rw [if_neg c1, if_neg (not_lt.mpr h2), if_neg (not_lt.mpr h4),
    if_neg (not_lt.mpr h5)]
  by_cases hr : ratioCheckFires cfg.textToMarkupRatio html.length
      d.textLength = true
  · simp [hr]
  · rw [if_neg hr]
    constructor
    · intro h
      exfalso
      split_ifs at h <;> exact absurd h (by decide)
    · intro h
      exact absurd h hr

/-- C8 (amended): past the earlier checks, the static-tier verdict is the
low-ratio promotion exactly when markup is positive, text/markup is below
the configured `text_to_markup_ratio`, and the page is strictly below 50000
characters.  The ratio check never fires at or above 50000 characters, so
the threshold halving (applied only above 100000) can never influence the
verdict.  (The claim as stated - threshold halved and active between 50 and
100 KB - is refuted by `c8_counterexample`.) -/
theorem c8_ratio_rule (cfg : AnalyzerConfig)
    (parse : String → Option ParsedDoc) (html : String) (d : ParsedDoc)
    (hp : parse html = some d) (h1 : ¬(html = ""))
    (h2 : cfg.minContentLength ≤ html.length)
    (h4 : cfg.minTextLength ≤ d.textLength)
    (h5 : cfg.minMeaningfulElements ≤ d.meaningfulElements) :
    (isSkeletonContent cfg parse html = (true, .lowRatio) ↔
      (d.textLength < html.length ∧
       (d.textLength : ℚ) / ((html.length : ℚ) - (d.textLength : ℚ)) <
         cfg.textToMarkupRatio ∧
       html.length < 50000)) ∧
    (∀ (m : ℚ) (c t : Nat), 50000 ≤ c → ratioCheckFires m c t = false) := by
  constructor
  · exact (isSkeletonContent_lowRatio_iff cfg parse html d hp h1 h2 h4 h5).trans
      (ratioCheckFires_iff _ _ _)
  · intro m c t hc
    by_contra h
    have := (ratioCheckFires_iff m c t).mp (by simpa using h)
    omega

/-- Witness for C8: a 200-character page with 10 characters of text and
threshold 1/10 is promoted with the low-ratio verdict. -/
theorem c8_witness :
    isSkeletonContent cfgRatio parseSmall htmlSmall =
      (true, SkeletonReason.lowRatio) := by
  have hlen : htmlSmall.length = 200 := by
    show (List.replicate 200 'x').length = 200
    rw [List.length_replicate]
  refine (c8_ratio_rule cfgRatio parseSmall htmlSmall
      { textLength := 10, meaningfulElements := 5, divCount := 0 } rfl
      ?_ ?_ (by decide) (by decide)).1.mpr ⟨?_, ?_, ?_⟩
  · intro h
    have h0 : htmlSmall.length = 0 := by rw [h]; rfl
    omega
  · rw [hlen]
    decide
  · rw [hlen]
    decide
  · rw [hlen]
    norm_num [cfgRatio]
  · rw [hlen]
    decide

/-- Counterexample to C8 as stated: at 60000 characters with 300 characters
of text, the spec's halved threshold (1/20) exceeds the page's ratio
(300/59700), so the spec's reading promotes the page, while the source's
check is skipped at or above 50000 characters and the verdict is not the
low-ratio promotion. -/
theorem c8_counterexample :
    specRatioPromotes cfgRatio 60000 300 = true ∧
    isSkeletonContent cfgRatio parseBig htmlBig ≠
      (true, SkeletonReason.lowRatio) := by
  have hlen : htmlBig.length = 60000 := by
    show (List.replicate 60000 'x').length = 60000
    rw [List.length_replicate]
  constructor
  · norm_num [specRatioPromotes, cfgRatio]
  · intro h
    have h2 : cfgRatio.minContentLength ≤ htmlBig.length := by
      rw [hlen]
      decide
    have hfire := (isSkeletonContent_lowRatio_iff cfgRatio parseBig htmlBig
      { textLength := 300, meaningfulElements := 5, divCount := 0 } rfl
      (by decide) h2 (by decide) (by decide)).mp h
    have := (ratioCheckFires_iff _ _ _).mp (by rw [hlen] at hfire; exact hfire)
    omega

/-- The loop's ghost round-input list coincides with `roundsGo` (helper). -/
theorem retryLoopGo_roundInputs (env : FetchEnv) :
    ∀ (fuel a : Nat) (tp : List String) (acc last : List UrlResult),
      (retryLoopGo env fuel a tp acc last).roundInputs = roundsGo env fuel a tp := by
  intro fuel
  induction fuel with
  | zero => intro a tp acc last; rfl
  | succ n ih =>
    intro a tp acc last
    simp only [retryLoopGo, roundsGo]
    by_cases h : tp.isEmpty
    · simp [h]
    · simp [h, ih]

/-- No rounds run on an empty carry (helper). -/
theorem roundsGo_nil (env : FetchEnv) :
    ∀ fuel a, roundsGo env fuel a [] = [] := by
  intro fuel a
  cases fuel <;> simp [roundsGo]

/-- At most `fuel` rounds run (helper). -/
theorem roundsGo_length_le (env : FetchEnv) :
    ∀ fuel a tp, (roundsGo env fuel a tp).length ≤ fuel := by
  intro fuel
  induction fuel with
  | zero => intro a tp; simp [roundsGo]
  | succ n ih =>
    intro a tp
    simp only [roundsGo]
    split
    · simp
    · simpa using ih _ _

/-- Every executed round has a non-empty input (helper). -/
theorem roundsGo_mem_ne_nil (env : FetchEnv) :
    ∀ fuel a tp l, l ∈ roundsGo env fuel a tp → l ≠ [] := by
  intro fuel
  induction fuel with
  | zero => intro a tp l h; simp [roundsGo] at h
  | succ n ih =>
    intro a tp l h
    simp only [roundsGo] at h
    split at h
    · simp at h
    · rcases List.mem_cons.mp h with rfl | h2
      · rename_i hne
        intro he
        exact hne (by simp [he])
      · exact ih _ _ _ h2

/-- The carry of a round only contains URLs of that round (helper). -/
theorem carryOf_render_subset (env : FetchEnv) (a : Nat) (tp : List String) :
    ∀ u ∈ carryOf env.skel (rendererProcessUrls env a tp), u ∈ tp := by
  intro u hu
  simp only [carryOf, List.mem_map, List.mem_filter, rendererProcessUrls] at hu
  obtain ⟨r, ⟨hr, _⟩, rfl⟩ := hu
  obtain ⟨v, hv, rfl⟩ := hr
  exact hv

/-- Round inputs only contain URLs of the initial input (helper). -/
theorem roundsGo_mem_subset (env : FetchEnv) :
    ∀ fuel a tp l, l ∈ roundsGo env fuel a tp → ∀ u ∈ l, u ∈ tp := by
  intro fuel
  induction fuel with
  | zero => intro a tp l h; simp [roundsGo] at h
  | succ n ih =>
    intro a tp l h u hul
    simp only [roundsGo] at h
    split at h
    · simp at h
    · rcases List.mem_cons.mp h with rfl | h2
      · exact hul
      · exact carryOf_render_subset env a tp u (ih _ _ _ h2 u hul)

/-- The first round processes the initial input (helper). -/
theorem roundsGo_get?_zero (env : FetchEnv) :
    ∀ fuel a tp tp1, (roundsGo env fuel a tp).get? 0 = some tp1 → tp1 = tp := by
  intro fuel a tp tp1 h
  cases fuel with
  | zero => simp [roundsGo] at h
  | succ n =>
    simp only [roundsGo] at h
    split at h
    · simp at h
    · simpa using h.symm

/-- Round `k + 1` processes exactly the carry of round `k` (helper). -/
theorem roundsGo_get?_succ (env : FetchEnv) :
    ∀ fuel a tp k tp1 tp2,
      (roundsGo env fuel a tp).get? k = some tp1 →
      (roundsGo env fuel a tp).get? (k + 1) = some tp2 →
      tp2 = carryOf env.skel (rendererProcessUrls env (a + k) tp1) := by
  intro fuel
  induction fuel with
  | zero => intro a tp k tp1 tp2 h1 h2; simp [roundsGo] at h1
  | succ n ih =>
    intro a tp k tp1 tp2 h1 h2
    by_cases he : tp.isEmpty = true
    · simp [roundsGo, he] at h1
    · simp only [roundsGo] at h1 h2
      rw [if_neg he] at h1 h2
      cases k with
      | zero =>
        simp only [List.get?] at h1 h2
        obtain rfl : tp1 = tp := by simpa using h1.symm
        have := roundsGo_get?_zero env _ _ _ _ h2
        simpa using this
      | succ m =>
        simp only [List.get?] at h1 h2
        have := ih (a + 1) _ m tp1 tp2 h1 h2
        rw [this]
        ring_nf

/-- When a round's carry is empty the loop stops right there (helper). -/
theorem roundsGo_early_exit (env : FetchEnv) :
    ∀ fuel a tp k tp1,
      (roundsGo env fuel a tp).get? k = some tp1 →
      carryOf env.skel (rendererProcessUrls env (a + k) tp1) = [] →
      (roundsGo env fuel a tp).length = k + 1 := by
  intro fuel
  induction fuel with
  | zero => intro a tp k tp1 h1 h2; simp [roundsGo] at h1
  | succ n ih =>
    intro a tp k tp1 h1 h2
    by_cases he : tp.isEmpty = true
    · simp [roundsGo, he] at h1
    · simp only [roundsGo] at h1 ⊢
      rw [if_neg he] at h1 ⊢
      cases k with
      | zero =>
        simp only [List.get?] at h1
        obtain rfl : tp1 = tp := by simpa using h1.symm
        have hc : carryOf env.skel (rendererProcessUrls env a tp1) = [] := by
          simpa using h2
        simp [hc, roundsGo_nil]
      | succ m =>
        simp only [List.get?] at h1
        have := ih (a + 1) _ m tp1 h1 (by rw [← h2]; ring_nf)
        simp [this]

/-- The carry membership criterion: failed, or successful with non-empty
HTML classified as skeleton (helper). -/
theorem carryOf_mem_iff (skel : String → String → Bool) (rs : List UrlResult)
    (u : String) :
    u ∈ carryOf skel rs ↔
      ∃ r ∈ rs, r.url = u ∧
        (¬(r.status = "success") ∨
         (htmlTruthy r.html = true ∧ skel (r.html.getD "") r.url = true)) := by
  simp only [carryOf, List.mem_map, List.mem_filter, needsRetry]
  constructor
  · rintro ⟨r, ⟨hr, hpred⟩, rfl⟩
    refine ⟨r, hr, rfl, ?_⟩
    by_cases h : r.status == "success"
    · rw [if_pos h] at hpred
      right
      exact ⟨(Bool.and_eq_true _ _).mp hpred |>.1,
             (Bool.and_eq_true _ _).mp hpred |>.2⟩
    · left
      intro he
      exact h (beq_iff_eq.mpr he)
  · rintro ⟨r, hr, rfl, hcond⟩
    refine ⟨r, ⟨hr, ?_⟩, rfl⟩
    rcases hcond with hfail | ⟨ht, hs⟩
    · rw [if_neg (fun h => hfail (beq_iff_eq.mp h))]
    · by_cases h : r.status == "success"
      · rw [if_pos h, ht, hs]
        rfl
      · rw [if_neg h]

/-- C5: the renderer retry loop of `async_fetch_batch` runs at most
`custom_js_max_retries` rounds; every executed round has a non-empty input;
the input of round `k + 1` is exactly the carry of round `k` (compare
`carryOf_mem_iff`: the URLs whose round-`k` record failed or was classified
as skeleton on non-empty HTML); the loop stops as soon as a carry is empty;
and carry membership is exactly failure-or-skeleton. -/
theorem c5_retry_loop (env : FetchEnv) (maxRetries : Nat) (js : List String) :
    ((retryLoopGo env maxRetries 1 js [] []).roundInputs).length ≤ maxRetries ∧
    (∀ l ∈ (retryLoopGo env maxRetries 1 js [] []).roundInputs, l ≠ []) ∧
    (∀ k tp1 tp2,
      ((retryLoopGo env maxRetries 1 js [] []).roundInputs).get? k = some tp1 →
      ((retryLoopGo env maxRetries 1 js [] []).roundInputs).get? (k + 1) =
        some tp2 →
      tp2 = carryOf env.skel (rendererProcessUrls env (k + 1) tp1)) ∧
    (∀ k tp1,
      ((retryLoopGo env maxRetries 1 js [] []).roundInputs).get? k = some tp1 →
      carryOf env.skel (rendererProcessUrls env (k + 1) tp1) = [] →
      ((retryLoopGo env maxRetries 1 js [] []).roundInputs).length = k + 1) ∧
    (∀ (rs : List UrlResult) (u : String),
      u ∈ carryOf env.skel rs ↔
        ∃ r ∈ rs, r.url = u ∧
          (¬(r.status = "success") ∨
           (htmlTruthy r.html = true ∧
            env.skel (r.html.getD "") r.url = true))) := by
  rw [retryLoopGo_roundInputs]
  refine ⟨roundsGo_length_le env _ _ _, roundsGo_mem_ne_nil env _ _ _, ?_, ?_, ?_⟩
  · intro k tp1 tp2 h1 h2
    have := roundsGo_get?_succ env _ _ _ _ _ _ h1 h2
    rwa [Nat.add_comm 1 k] at this
  · intro k tp1 h1 hc
    exact roundsGo_early_exit env _ _ _ _ _ h1 (by rwa [Nat.add_comm 1 k])
  · intro rs u
    exact carryOf_mem_iff env.skel rs u

/-- Witness for C5 on a run whose first round fails and second succeeds. -/
theorem c5_witness :
    ((retryLoopGo envRetry 3 1 ["a"] [] []).roundInputs).length ≤ 3 ∧
    (["a"] : List String) =
      carryOf envRetry.skel (rendererProcessUrls envRetry 1 ["a"]) :=
  ⟨(c5_retry_loop envRetry 3 ["a"]).1,
   (c5_retry_loop envRetry 3 ["a"]).2.2.1 0 ["a"] ["a"] (by decide) (by decide)⟩

/-- C4: a needs-JS URL is skipped by `_should_skip_custom_js` iff its
normalized hostname equals a configured domain or ends in `"." ++ domain`;
skipped URLs never occur in any renderer round input and are routed into
`decodo_urls`; and (given at least one retry round) non-skipped needs-JS
URLs do reach the renderer, so skipping is equivalent to bypassing the
renderer tier. -/
theorem c4_skip_domain_bypass (cfg : BatchFetcherConfig) (env : FetchEnv)
    (urls : List String) (u : String) (hu : u ∈ jsUrlsOf env urls)
    (hR : 0 < cfg.customJsMaxRetries) :
    (shouldSkipCustomJs u cfg.customJsSkipDomains = true ↔
      ∃ d ∈ cfg.customJsSkipDomains,
        extractHostname u = d ∨
          strEndsWith (extractHostname u) ("." ++ d) = true) ∧
    (shouldSkipCustomJs u cfg.customJsSkipDomains = true ↔
      ∀ l ∈ (retryOut cfg env urls).roundInputs, u ∉ l) ∧
    (shouldSkipCustomJs u cfg.customJsSkipDomains = true →
      u ∈ decodoUrlsOf cfg env urls) := by
  have hkept : ∀ hsk : shouldSkipCustomJs u cfg.customJsSkipDomains = false,
      u ∈ (routeSkip cfg (jsUrlsOf env urls)).2 := by
    intro hsk
    by_cases hE : cfg.customJsSkipDomains.isEmpty
    · simp [routeSkip, hE, hu]
    · simp [routeSkip, hE, List.mem_filter, hu, hsk]
  refine ⟨?_, ?_, ?_⟩
  · by_cases hE : cfg.customJsSkipDomains.isEmpty
    · have he : cfg.customJsSkipDomains = [] := by simpa using hE
      simp [shouldSkipCustomJs, he]
    · simp only [shouldSkipCustomJs, hE, Bool.false_eq_true, if_false,
        List.any_eq_true, Bool.or_eq_true, beq_iff_eq]
  · constructor
    · intro hsk l hl hul
      unfold retryOut at hl
      rw [retryLoopGo_roundInputs] at hl
      have hukept := roundsGo_mem_subset env _ _ _ _ hl u hul
      by_cases hE : cfg.customJsSkipDomains.isEmpty
      · have he : cfg.customJsSkipDomains = [] := by simpa using hE
        rw [he] at hsk
        simp [shouldSkipCustomJs] at hsk
      · unfold routeSkip at hukept
        rw [if_neg (by simpa using hE)] at hukept
        have := (List.mem_filter.mp hukept).2
        simp [hsk] at this
    · intro hall
      by_contra hns
      have hsk : shouldSkipCustomJs u cfg.customJsSkipDomains = false :=
        Bool.eq_false_iff.mpr hns
      have hmem := hkept hsk
      obtain ⟨m, hm⟩ : ∃ m, cfg.customJsMaxRetries = m + 1 :=
        ⟨cfg.customJsMaxRetries - 1, by omega⟩
      rcases hx : (routeSkip cfg (jsUrlsOf env urls)).2 with _ | ⟨x, xs⟩
      · rw [hx] at hmem
        simp at hmem
      · have hhead : (routeSkip cfg (jsUrlsOf env urls)).2 ∈
            (retryOut cfg env urls).roundInputs := by
          unfold retryOut
          rw [retryLoopGo_roundInputs, hm, hx]
          simp only [roundsGo, List.isEmpty_cons, Bool.false_eq_true, if_false]
          exact List.mem_cons_self _ _
        exact hall _ hhead hmem
  · intro hsk
    have hE : cfg.customJsSkipDomains.isEmpty = false := by
      rcases hx : cfg.customJsSkipDomains with _ | ⟨d, ds⟩
      · rw [hx] at hsk
        simp [shouldSkipCustomJs] at hsk
      · simp
    refine List.mem_append.mpr (Or.inl ?_)
    unfold routeSkip
    rw [if_neg (by simp [hE])]
    exact List.mem_filter.mpr ⟨hu, hsk⟩

/-- Witness for C4: `https://www.jiomart.com/p/123` with skip list
`[jiomart.com]` is routed into `decodo_urls`. -/
theorem c4_witness :
    "https://www.jiomart.com/p/123" ∈ decodoUrlsOf cfgSkip envSkip
      ["https://www.jiomart.com/p/123"] :=
  (c4_skip_domain_bypass cfgSkip envSkip ["https://www.jiomart.com/p/123"]
      "https://www.jiomart.com/p/123" (by decide) (by decide)).2.2 (by decide)

/-- Every continuing poll step advances the state with factor 1.2 or 1.5
(helper). -/
theorem pollStep_cont_advance (orig : Option String) (ev : PollEvent)
    (st st2 : PollState) (h : pollStep orig ev st = .cont st2) :
    ∃ f c, (f = (6 : ℚ) / 5 ∨ f = (3 : ℚ) / 2) ∧ st2 = st.advance f c := by
  cases ev with
  | http s body =>
    simp only [pollStep] at h
    split at h
    · exact ⟨6 / 5, 0, Or.inl rfl, (StepRes.cont.inj h).symm⟩
    · split at h
      · split at h
        · cases h
        · exact ⟨3 / 2, _, Or.inr rfl, (StepRes.cont.inj h).symm⟩
      · split at h
        · cases h
        · split at h
          · split at h
            · cases h
            · exact ⟨3 / 2, _, Or.inr rfl, (StepRes.cont.inj h).symm⟩
          · split at h
            · split at h
              · cases h
              · exact ⟨3 / 2, _, Or.inr rfl, (StepRes.cont.inj h).symm⟩
            · split at h
              · cases h
              · exact ⟨3 / 2, _, Or.inr rfl, (StepRes.cont.inj h).symm⟩
            · rename_i d
              rcases hcl : classify200 d with e | cl
              · simp only [hcl] at h
                cases h
              · simp only [hcl] at h
                cases cl with
                | term html st3 err dataUrl => cases h
                | processing =>
                  exact ⟨6 / 5, 0, Or.inl rfl, (StepRes.cont.inj h).symm⟩
  | reqTimeout =>
    simp only [pollStep] at h
    split at h
    · cases h
    · exact ⟨3 / 2, _, Or.inr rfl, (StepRes.cont.inj h).symm⟩
  | netError =>
    simp only [pollStep] at h
    split at h
    · cases h
    · exact ⟨3 / 2, _, Or.inr rfl, (StepRes.cont.inj h).symm⟩
  | exn msg => cases h

/-- Fuel sufficiency for the polling loop: each continuing step adds at
least `δ = min pollInterval 10` to the waited time (helper). -/
theorem pollGo_isSome (orig : Option String) (events : Nat → PollEvent)
    (maxWait : ℚ) (δ : ℚ) (hδpos : 0 < δ) (hδ10 : δ ≤ 10) :
    ∀ (fuel n : Nat) (st : PollState), δ ≤ st.interval →
      maxWait ≤ st.waited + (fuel : ℚ) * δ →
      (pollGo orig events maxWait (fuel + 1) n st).isSome := by
  intro fuel
  induction fuel with
  | zero =>
    intro n st hi hw
    simp only [pollGo]
    split
    · rename_i hlt
      exfalso
      push_cast at hw
      linarith
    · simp
  | succ m ih =>
    intro n st hi hw
    simp only [pollGo]
    split
    · rename_i hlt
      rcases hs : pollStep orig (events n) st with r | st2
      · simp [hs]
      · simp only [hs]
        obtain ⟨f, c, hf, rfl⟩ := pollStep_cont_advance _ _ _ _ hs
        apply ih (n + 1)
        · show δ ≤ min (st.interval * f) 10
          refine le_min ?_ hδ10
          calc δ ≤ st.interval := hi
            _ ≤ st.interval * f := by
              refine le_mul_of_one_le_right (le_trans hδpos.le hi) ?_
              rcases hf with rfl | rfl <;> norm_num
        · show maxWait ≤ st.waited + st.interval + (m : ℚ) * δ
          push_cast at hw
          linarith
    · simp

/-- A "not ready" event always continues the loop (helper). -/
theorem pollStep_notReady (orig : Option String) (ev : PollEvent)
    (st : PollState) (h : isNotReady ev = true) :
    pollStep orig ev st = .cont (st.advance (6 / 5) 0) := by
  cases ev with
  | http s body =>
    have hor : (s == 404 || s == 204) = true := by simpa [isNotReady] using h
    simp [pollStep, hor]
  | reqTimeout => simp [isNotReady] at h
  | netError => simp [isNotReady] at h
  | exn msg => simp [isNotReady] at h

/-- A loop fed only "not ready" responses can only end by the timeout
record (helper). -/
theorem pollGo_notReady (orig : Option String) (events : Nat → PollEvent)
    (maxWait : ℚ) (hall : ∀ n, isNotReady (events n) = true) :
    ∀ (fuel n : Nat) (st : PollState),
      (pollGo orig events maxWait fuel n st).isSome →
      pollGo orig events maxWait fuel n st = some (timeoutRecord orig) := by
  intro fuel
  induction fuel with
  | zero => intro n st h; simp [pollGo] at h
  | succ m ih =>
    intro n st h
    have hstep := pollStep_notReady orig (events n) st (hall n)
    simp only [pollGo, hstep] at h ⊢
    split at h
    · rename_i hlt
      rw [if_pos hlt]
      exact ih (n + 1) _ h
    · rename_i hlt
      rw [if_neg hlt]

/-- C7: the interval starts at `poll_interval` and every backoff step sets
the next interval to `min(interval * factor, 10)` (so after any step it is
at most 10 s); "not ready" (404/204) and still-processing responses use
factor 1.2 and transport/parse errors use factor 1.5 (these are the only
two factors); for a positive poll interval the loop always returns a
record, and if no response ever terminates the task the record is the
"Polling timeout" failure issued once the accumulated wait reaches the
configured timeout. -/
theorem c7_poll_backoff_termination (cfg : DecodoConfig)
    (events : Nat → PollEvent) (orig : Option String)
    (hpi : 0 < cfg.pollInterval) :
    (∀ (st : PollState) (f : ℚ) (c : Nat),
      (st.advance f c).waited = st.waited + st.interval ∧
      (st.advance f c).interval = min (st.interval * f) 10 ∧
      (st.advance f c).interval ≤ 10) ∧
    (∀ (st : PollState) (s : Nat) (body : PollBody), (s = 404 ∨ s = 204) →
      pollStep orig (.http s body) st = .cont (st.advance (6 / 5) 0)) ∧
    (∀ (st : PollState) (d : Json), classify200 d = .ok .processing →
      pollStep orig (.http 200 (.jsonOk d)) st = .cont (st.advance (6 / 5) 0)) ∧
    (∀ st : PollState, st.consec + 1 < 5 →
      pollStep orig .reqTimeout st =
        .cont (st.advance (3 / 2) (st.consec + 1)) ∧
      pollStep orig .netError st =
        .cont (st.advance (3 / 2) (st.consec + 1)) ∧
      pollStep orig (.http 200 .jsonContentTypeError) st =
        .cont (st.advance (3 / 2) (st.consec + 1)) ∧
      pollStep orig (.http 200 .jsonDecodeError) st =
        .cont (st.advance (3 / 2) (st.consec + 1))) ∧
    (∀ (ev : PollEvent) (st st2 : PollState), pollStep orig ev st = .cont st2 →
      ∃ f c, (f = (6 : ℚ) / 5 ∨ f = (3 : ℚ) / 2) ∧ st2 = st.advance f c) ∧
    (pollTaskResult cfg events orig).isSome ∧
    ((∀ n, isNotReady (events n) = true) →
      pollTaskResult cfg events orig = some (timeoutRecord orig)) := by
  have hδpos : 0 < min cfg.pollInterval 10 := lt_min hpi (by norm_num)
  have hsome : (pollTaskResult cfg events orig).isSome := by
    unfold pollTaskResult pollFuel
    rw [if_neg (not_le.mpr hpi)]
    apply pollGo_isSome orig events cfg.timeout (min cfg.pollInterval 10)
      hδpos (min_le_right _ _)
    · exact min_le_left _ _
    · have hle : cfg.timeout / min cfg.pollInterval 10 ≤
          (Nat.ceil (cfg.timeout / min cfg.pollInterval 10) : ℚ) :=
        Nat.le_ceil _
      have := mul_le_mul_of_nonneg_right hle hδpos.le
      rw [div_mul_cancel₀ _ hδpos.ne'] at this
      simpa using this
  refine ⟨?_, ?_, ?_, ?_, ?_, hsome, ?_⟩
  · intro st f c
    exact ⟨rfl, rfl, min_le_right _ _⟩
  · intro st s body hs
    rcases hs with rfl | rfl <;> simp [pollStep]
  · intro st d hcl
    simp [pollStep, hcl]
  · intro st hc
    have h5 : ¬(5 ≤ st.consec + 1) := by omega
    refine ⟨?_, ?_, ?_, ?_⟩ <;> simp [pollStep, h5]
  · exact fun ev st st2 h => pollStep_cont_advance orig ev st st2 h
  · intro hall
    exact pollGo_notReady orig events cfg.timeout hall _ _ _ hsome

/-- Witness for C7: a stream of permanent 404s against a 5-second deadline
with a 2-second interval terminates with the polling-timeout record. -/
theorem c7_witness :
    (pollTaskResult cfgPoll (fun _ => PollEvent.http 404 .jsonDecodeError)
      none).isSome ∧
    pollTaskResult cfgPoll (fun _ => PollEvent.http 404 .jsonDecodeError)
      none = some (timeoutRecord none) :=
  ⟨(c7_poll_backoff_termination cfgPoll
      (fun _ => PollEvent.http 404 .jsonDecodeError) none
      (by norm_num [cfgPoll])).2.2.2.2.2.1,
   (c7_poll_backoff_termination cfgPoll
      (fun _ => PollEvent.http 404 .jsonDecodeError) none
      (by norm_num [cfgPoll])).2.2.2.2.2.2 (fun n => rfl)⟩

/-- C9: `process_urls` is insensitive to `max_poll_attempts`: for any two
configurations agreeing on every other stored field, any network behaviour
and any URL list, the results are identical — the parameter is stored by
`__init__` but never read by the polling loop, which is bounded only by
the configured timeout and the consecutive-error budget. -/
theorem c9_maxPollAttempts_unused (cfg1 cfg2 : DecodoConfig)
    (env : DecodoEnv) (urls : List String)
    (h1 : cfg1.timeout = cfg2.timeout)
    (h2 : cfg1.headlessMode = cfg2.headlessMode)
    (h3 : cfg1.location = cfg2.location)
    (h4 : cfg1.language = cfg2.language)
    (h5 : cfg1.target = cfg2.target)
    (h6 : cfg1.deviceType = cfg2.deviceType)
    (h7 : cfg1.apiEndpoint = cfg2.apiEndpoint)
    (h8 : cfg1.resultsEndpoint = cfg2.resultsEndpoint)
    (h9 : cfg1.pollInterval = cfg2.pollInterval)
    (h10 : cfg1.maxConcurrent = cfg2.maxConcurrent)
    (h11 : cfg1.username = cfg2.username)
    (h12 : cfg1.password = cfg2.password)
    (h13 : cfg1.basicAuthToken = cfg2.basicAuthToken) :
    decodoProcessUrls cfg1 env urls = decodoProcessUrls cfg2 env urls := by
  cases cfg1
  cases cfg2
  dsimp only at h1 h2 h3 h4 h5 h6 h7 h8 h9 h10 h11 h12 h13
  subst h1 h2 h3 h4 h5 h6 h7 h8 h9 h10 h11 h12 h13
  rfl

/-- Witness for C9: `max_poll_attempts` 30 versus 7 on a one-task batch. -/
theorem c9_witness :
    decodoProcessUrls cfgPoll envDecodo ["https://x.example/"] =
      decodoProcessUrls cfgPoll7 envDecodo ["https://x.example/"] :=
  c9_maxPollAttempts_unused cfgPoll cfgPoll7 envDecodo ["https://x.example/"]
    rfl rfl rfl rfl rfl rfl rfl rfl rfl rfl rfl rfl rfl

/-- The renderer's records carry exactly the round's URLs (helper). -/
theorem rendererProcessUrls_map_url (env : FetchEnv) (a : Nat)
    (tp : List String) :
    (rendererProcessUrls env a tp).map (fun r => r.url) = tp := by
  rw [rendererProcessUrls, List.map_map]
  exact List.map_id tp

/-- One round's accepted and carried URLs are a permutation of its input
(helper). -/
theorem round_accepted_carry_perm (env : FetchEnv) (a : Nat)
    (tp : List String) :
    ((acceptedOf env.skel (rendererProcessUrls env a tp)).map (fun r => r.url)
      ++ carryOf env.skel (rendererProcessUrls env a tp)).Perm tp := by
  have hperm : ((rendererProcessUrls env a tp).filter
        (fun r => !needsRetry env.skel r) ++
      (rendererProcessUrls env a tp).filter (needsRetry env.skel)).Perm
      (rendererProcessUrls env a tp) := by
    have h := List.filter_append_perm (fun r => !needsRetry env.skel r)
      (rendererProcessUrls env a tp)
    have h2 : ((rendererProcessUrls env a tp).filter
        (fun x => !(!needsRetry env.skel x))) =
        (rendererProcessUrls env a tp).filter (needsRetry env.skel) :=
      List.filter_congr (fun r _ => Bool.not_not _)
    rwa [h2] at h
  have := (hperm.map (fun r => r.url))
  rw [List.map_append] at this
  rw [rendererProcessUrls_map_url] at this
  exact this

/-- Loop invariant: accepted URLs plus the residual are a permutation of
the accumulator's URLs plus the current input (helper). -/
theorem retryLoopGo_url_perm (env : FetchEnv) :
    ∀ (fuel a : Nat) (tp : List String) (acc last : List UrlResult),
      (((retryLoopGo env fuel a tp acc last).accepted).map (fun r => r.url) ++
        (retryLoopGo env fuel a tp acc last).remaining).Perm
        (acc.map (fun r => r.url) ++ tp) := by
  intro fuel
  induction fuel with
  | zero => intro a tp acc last; exact List.Perm.refl _
  | succ n ih =>
    intro a tp acc last
    by_cases he : tp.isEmpty = true
    · simp only [retryLoopGo]
      rw [if_pos he]
    · simp only [retryLoopGo]
      rw [if_neg he]
      have h1 := ih (a + 1) (carryOf env.skel (rendererProcessUrls env a tp))
        (acc ++ acceptedOf env.skel (rendererProcessUrls env a tp))
        (rendererProcessUrls env a tp)
      refine h1.trans ?_
      rw [List.map_append, List.append_assoc]
      exact List.Perm.append_left _ (round_accepted_carry_perm env a tp)

/-- Phase-1 success records carry exactly the non-JS URLs (helper). -/
theorem succ1_map_url (env : FetchEnv) (urls : List String) :
    (((phase1 env urls).filter (fun p => !p.2.needsJs)).map
      (fun p => ({ url := p.1, html := p.2.html, method := p.2.method.str,
                   status := "success", error := none } : AggRecord))).map
          (fun r => r.url) =
      urls.filter (fun u => !(env.static u).needsJs) := by
  rw [List.map_map, phase1, List.filter_map, List.map_map]
  exact List.map_id _

/-- `js_urls` is the needs-JS filter of the input (helper). -/
theorem jsUrlsOf_eq_filter (env : FetchEnv) (urls : List String) :
    jsUrlsOf env urls = urls.filter (fun u => (env.static u).needsJs) := by
  rw [jsUrlsOf, phase1, List.filter_map, List.map_map]
  exact List.map_id _

/-- The input splits into its non-JS and JS parts (helper). -/
theorem urls_split_perm (env : FetchEnv) (urls : List String) :
    (urls.filter (fun u => !(env.static u).needsJs) ++
      urls.filter (fun u => (env.static u).needsJs)).Perm urls := by
  have h := List.filter_append_perm (fun u => !(env.static u).needsJs) urls
  have h2 : urls.filter (fun x => !(!(env.static x).needsJs)) =
      urls.filter (fun u => (env.static u).needsJs) :=
    List.filter_congr (fun r _ => Bool.not_not _)
  rwa [h2] at h

/-- Skip-domain routing splits `js_urls` up to permutation (helper). -/
theorem routeSkip_perm (cfg : BatchFetcherConfig) (js : List String) :
    ((routeSkip cfg js).1 ++ (routeSkip cfg js).2).Perm js := by
  unfold routeSkip
  by_cases hE : cfg.customJsSkipDomains.isEmpty = true
  · rw [if_pos hE]
    exact List.Perm.refl js
  · rw [if_neg hE]
    exact List.filter_append_perm _ js

/-- When the loop's residual is empty, its last round holds no failed
record (helper). -/
theorem retryLoopGo_no_failed_left (env : FetchEnv) :
    ∀ (fuel a : Nat) (tp : List String) (acc last : List UrlResult),
      (retryLoopGo env fuel a tp acc last).remaining = [] →
      ((retryLoopGo env fuel a tp acc last).lastResults.filter
          (fun r => r.status == "failed") = [] ∨
        ((retryLoopGo env fuel a tp acc last).lastResults = last ∧ tp = [])) := by
  intro fuel
  induction fuel with
  | zero => intro a tp acc last h; exact Or.inr ⟨rfl, h⟩
  | succ n ih =>
    intro a tp acc last h
    by_cases he : tp.isEmpty = true
    · simp only [retryLoopGo] at h ⊢
      rw [if_pos he] at h ⊢
      exact Or.inr ⟨rfl, h⟩
    · simp only [retryLoopGo] at h ⊢
      rw [if_neg he] at h ⊢
      rcases ih (a + 1) (carryOf env.skel (rendererProcessUrls env a tp))
          (acc ++ acceptedOf env.skel (rendererProcessUrls env a tp))
          (rendererProcessUrls env a tp) h with h1 | ⟨h2, h3⟩
      · exact Or.inl h1
      · left
        show (retryLoopGo env n (a + 1) _ _ _).lastResults.filter
          (fun r => r.status == "failed") = []
        rw [h2]
        rw [List.filter_eq_nil_iff]
        intro r hr hf
        have hnr : needsRetry env.skel r = true := by
          have hst : r.status = "failed" := beq_iff_eq.mp hf
          rw [needsRetry, if_neg]
          rw [hst]
          intro hcontra
          exact absurd (beq_iff_eq.mp hcontra) (by decide)
        have hmem : r ∈ (rendererProcessUrls env a tp).filter
            (needsRetry env.skel) := List.mem_filter.mpr ⟨hr, hnr⟩
        have hnil : (rendererProcessUrls env a tp).filter
            (needsRetry env.skel) = [] := by
          have := h3
          rw [carryOf] at this
          exact List.map_eq_nil_iff.mp this
        rw [hnil] at hmem
        exact absurd hmem (List.not_mem_nil r)

/-- C1 (amended): with the provider enabled (and the provider returning one
record per URL, in order), the final results carry each input URL exactly
once, counted with multiplicity: the result URLs are a permutation of the
input.  The order is phase order - static successes, then renderer
successes, then provider records - not input order, and with the provider
disabled a URL failing the last renderer round is recorded twice; both
departures from the claim as stated are exhibited by `c1_counterexample`. -/
theorem c1_results_permutation (cfg : BatchFetcherConfig) (env : FetchEnv)
    (urls : List String) (hd : cfg.decodoEnabled = true)
    (hdec : ∀ us, (env.decodo us).map (fun r => r.url) = us) :
    ((asyncFetchBatch cfg env urls).map (fun r => r.url)).Perm urls := by
  have hsucc := succ1_map_url env urls
  have hjs := jsUrlsOf_eq_filter env urls
  have hsplit := urls_split_perm env urls
  have hroute := routeSkip_perm cfg (jsUrlsOf env urls)
  have hloop := retryLoopGo_url_perm env cfg.customJsMaxRetries 1
    (routeSkip cfg (jsUrlsOf env urls)).2 [] []
  simp only [List.map_nil, List.nil_append] at hloop
  have hcompCjs : ((fun (r : AggRecord) => r.url) ∘ fun (r : UrlResult) =>
      ({ url := r.url, html := r.html, method := "custom_js",
         status := "success", error := none } : AggRecord)) =
      (fun (r : UrlResult) => r.url) := rfl
  have hcompFail : ((fun (r : AggRecord) => r.url) ∘ fun (r : UrlResult) =>
      ({ url := r.url, html := none, method := "custom_js",
         status := "failed", error := r.error } : AggRecord)) =
      (fun (r : UrlResult) => r.url) := rfl
  have hcompPh3 : ((fun (r : AggRecord) => r.url) ∘ phase3Record) =
      (fun (r : UrlResult) => r.url) := rfl
  simp only [asyncFetchBatch]
  split
  · rename_i hcond
    rw [hsucc]
    obtain ⟨hk, hD⟩ := (Bool.and_eq_true _ _).mp hcond
    have hknil : (routeSkip cfg (jsUrlsOf env urls)).2 = [] :=
      List.isEmpty_iff.mp hk
    have hDnil : (routeSkip cfg (jsUrlsOf env urls)).1 = [] :=
      List.isEmpty_iff.mp hD
    have hjsnil : urls.filter (fun u => (env.static u).needsJs) = [] := by
      rw [← hjs]
      have h0 := hroute
      rw [hknil, hDnil] at h0
      exact h0.symm.eq_nil
    have h0 := hsplit
    rw [hjsnil, List.append_nil] at h0
    exact h0
  · rename_i hcond
    split
    · rename_i hdnil
      have hnil := List.append_eq_nil.mp (List.isEmpty_iff.mp hdnil)
      have hlf : ((retryOut cfg env urls).lastResults.filter
          (fun r => r.status == "failed")) = [] := by
        rcases retryLoopGo_no_failed_left env cfg.customJsMaxRetries 1
            (routeSkip cfg (jsUrlsOf env urls)).2 [] [] hnil.2 with h1 | ⟨h2, _⟩
        · exact h1
        · show (retryLoopGo env cfg.customJsMaxRetries 1
            (routeSkip cfg (jsUrlsOf env urls)).2 [] []).lastResults.filter
              (fun r => r.status == "failed") = []
          rw [h2]
          rfl
      rw [List.map_append, List.map_append, hsucc, List.map_map,
        List.map_map, hcompCjs, hcompFail, hlf]
      simp only [List.map_nil, List.append_nil]
      have hacc : ((retryOut cfg env urls).accepted.map (fun r => r.url)).Perm
          (routeSkip cfg (jsUrlsOf env urls)).2 := by
        have hrem : (retryLoopGo env cfg.customJsMaxRetries 1
            (routeSkip cfg (jsUrlsOf env urls)).2 [] []).remaining = [] :=
          hnil.2
        have h0 := hloop
        rw [hrem, List.append_nil] at h0
        exact h0
      refine (List.Perm.append_left _ hacc).trans ?_
      have hkept : ((routeSkip cfg (jsUrlsOf env urls)).2).Perm
          (jsUrlsOf env urls) := by
        have h0 := hroute
        rw [hnil.1, List.nil_append] at h0
        exact h0
      refine (List.Perm.append_left _ hkept).trans ?_
      rw [hjs]
      exact hsplit
    · rename_i hdne
      rw [hd, if_neg (by decide)]
      rw [List.map_append, List.map_append, hsucc, List.map_map,
        List.map_map, hcompCjs, hcompPh3, hdec]
      have hroute2 : ((routeSkip cfg (jsUrlsOf env urls)).1 ++
          (routeSkip cfg (jsUrlsOf env urls)).2).Perm
          (urls.filter (fun u => (env.static u).needsJs)) := by
        rw [← hjs]
        exact hroute
      have hstep1 : ((retryOut cfg env urls).accepted.map (fun r => r.url) ++
          ((routeSkip cfg (jsUrlsOf env urls)).1 ++
            (retryOut cfg env urls).remaining)).Perm
          ((routeSkip cfg (jsUrlsOf env urls)).1 ++
            (routeSkip cfg (jsUrlsOf env urls)).2) := by
        have hswap : ((retryOut cfg env urls).accepted.map (fun r => r.url) ++
            ((routeSkip cfg (jsUrlsOf env urls)).1 ++
              (retryOut cfg env urls).remaining)).Perm
            ((routeSkip cfg (jsUrlsOf env urls)).1 ++
              ((retryOut cfg env urls).accepted.map (fun r => r.url) ++
                (retryOut cfg env urls).remaining)) := by
          rw [← List.append_assoc, ← List.append_assoc]
          exact List.Perm.append_right _ List.perm_append_comm
        refine hswap.trans ?_
        exact List.Perm.append_left _ hloop
      refine List.Perm.trans ?_ hsplit
      rw [List.append_assoc]
      refine List.Perm.trans (List.Perm.append_left _ hstep1) ?_
      exact List.Perm.append_left _ hroute2

/-- Witness for C1 on a concrete two-URL batch. -/
theorem c1_witness :
    ((asyncFetchBatch cfgOn envOrder ["a", "b"]).map (fun r => r.url)).Perm
      ["a", "b"] :=
  c1_results_permutation cfgOn envOrder ["a", "b"] rfl
    (fun us => by
      simp only [envOrder, decodoAllFail, List.map_map]
      exact List.map_id us)

/-- Counterexample to C1 as stated: with `"a"` needing JS and `"b"` served
statically, the result order is `["b", "a"]`, not the input order; and with
the provider disabled a URL that fails the last renderer round is recorded
twice. -/
theorem c1_counterexample :
    (asyncFetchBatch cfgOn envOrder ["a", "b"]).map (fun r => r.url) ≠
      ["a", "b"] ∧
    ((asyncFetchBatch cfgOff envFail ["a", "b"]).map
      (fun r => r.url)).count "a" = 2 := by
  constructor <;> decide

end UrlToHtml
